import Mathlib

/-!
Verification of the SEDkit spectral stitching / calibration core
(src/SEDkit/spectrum.py and src/SEDkit/sed.py) against its specification.

Shallow embedding conventions.

Numbers: exact rationals stand in for IEEE floats; every arithmetic
comparison performed by the source on the concrete inputs used below is
exact, so the rational model agrees with the float computation there.

Uncertainties: the source stores uncertainty values and takes a final
square root at two sites (the merged-overlap uncertainty of
Spectrum.add, and Spectrum.flux_calibrate).  The square root of a
rational is in general irrational, so functions whose source applies
np.sqrt are embedded to return the SQUARE of the source's uncertainty;
the real square root is injective on nonnegative reals, hence every
equality or inequality between uncertainties holds iff it holds between
their squares.  Fields and arrays that hold such squares are written
uSq below.  Where a squared uncertainty flows into the SNR comparison
flux/unc >= t of the re-run constructor, the comparison is embedded as
t^2 * uSq <= flux^2, which is equivalent for the positive fluxes
(post-scrub) at that point.

Units: an astropy unit is modelled by its positive rational scale
factor to the base unit (Angstrom for wavelengths: um = 10000), so
conversion quantity.to(target) multiplies the stored value by
sourceScale / targetScale.

Python truthiness quirk: the source repeatedly writes any(idx) where
idx is a numpy array of indices; any is False when idx is empty OR when
its only element is the index 0.  An index >= 1 satisfying the
predicate exists iff a list element at position >= 1 satisfies it, so
this is embedded as (rows.drop 1).any pred.
-/

namespace SEDkit

/-- One sample of a measurement series: wavelength, flux value and
uncertainty (or squared uncertainty, see the file header). -/
structure Row where
  w : ℚ
  f : ℚ
  u : ℚ
deriving DecidableEq, Repr

/-- The state of a Spectrum object: current wavelength unit scale
(Angstroms per stored wavelength unit), current flux unit scale, and
the stored (wave, flux, unc) samples in the current units. -/
structure SpecState where
  ws : ℚ
  fs : ℚ
  rows : List Row
deriving DecidableEq, Repr

/-- Wavelength column of the stored samples. -/
def SpecState.waves (s : SpecState) : List ℚ := s.rows.map Row.w

/-- Flux column of the stored samples. -/
def SpecState.fluxes (s : SpecState) : List ℚ := s.rows.map Row.f

/-- Uncertainty column of the stored samples. -/
def SpecState.uncs (s : SpecState) : List ℚ := s.rows.map Row.u

/-- Linear interpolation np.interp x xp fp over the knot list
(xp, fp), for increasing xp: clamped to fp.head below the first knot
and to fp.last above the last knot, linear in between.  The source
never checks monotonicity of xp; all uses below have increasing xp. -/
def npInterp (x : ℚ) : List (ℚ × ℚ) → ℚ
  | [] => 0
  | [(_, y0)] => y0
  | (x0, y0) :: (x1, y1) :: rest =>
    if x ≤ x0 then y0
    else if x ≤ x1 then y0 + (y1 - y0) * (x - x0) / (x1 - x0)
    else npInterp x ((x1, y1) :: rest)

/-- Variant np.interp x xp fp left=0 right=0 used by synthetic_flux:
zero outside the knot range instead of clamping. -/
def npInterpZ (x : ℚ) (knots : List (ℚ × ℚ)) : ℚ :=
  match knots with
  | [] => 0
  | (x0, _) :: _ =>
    if x < x0 then 0
    else if ((knots.getLast?).getD (0, 0)).1 < x then 0
    else npInterp x knots

/-- Trapezoidal integral np.trapz y x over sample pairs (x, y). -/
def npTrapz : List (ℚ × ℚ) → ℚ
  | (x0, y0) :: (x1, y1) :: rest => (x1 - x0) * (y0 + y1) / 2 + npTrapz ((x1, y1) :: rest)
  | _ => 0

/-- Interior central differences of np.gradient, with the one-sided
difference at the trailing end. -/
def npGradientMid : ℚ → ℚ → List ℚ → List ℚ
  | prev, cur, [] => [cur - prev]
  | prev, cur, nxt :: more => (nxt - prev) / 2 :: npGradientMid cur nxt more

/-- Local spacing np.gradient x: one-sided differences at the ends,
central differences in the interior. -/
def npGradient (l : List ℚ) : List ℚ :=
  match l with
  | [] => []
  | [_] => [0]
  | x0 :: x1 :: rest => (x1 - x0) :: npGradientMid x0 x1 rest

/-- Modelled from the spec: the helper u.scrub (SEDkit/utilities.py is
not part of the sources) drops, per the spec, entries with non-positive
or non-finite value or non-finite uncertainty; rationals have no
non-finite values, so scrubbing keeps exactly the samples with positive
flux (source comment: remove nans, negatives, zeros, and infs). -/
def scrub (rows : List Row) : List Row := rows.filter (fun r => 0 < r.f)

/-- The SNR comparison flux/unc >= s of the edge trim, on plain
uncertainty values.  numpy float division by zero gives +inf for a
positive numerator (which passes any threshold), reflected by the zero
test; the trim runs after scrubbing, so fluxes are positive there. -/
def snrPredQ (s : ℚ) (r : Row) : Bool :=
  if r.u = 0 then decide (0 < r.f) else decide (s ≤ r.f / r.u)

/-- The same SNR comparison when the row carries the squared
uncertainty uSq: for the positive post-scrub fluxes, flux/unc >= s is
equivalent to s^2 * uSq <= flux^2. -/
def snrPredSq (s : ℚ) (r : Row) : Bool :=
  if r.u = 0 then decide (0 < r.f) else decide (s ^ 2 * r.u ≤ r.f ^ 2)

/-- Edge trim of the constructor (lines 143-146 of spectrum.py): the
source collects the indices i with flux_i/unc_i >= snr_trim and, when
any(idx) is truthy (see the file header), slices from the least to the
greatest such index.  The least qualifying index is the length of the
maximal failing prefix and the greatest is len - 1 - (maximal failing
suffix), so the slice strips the maximal failing prefix and suffix;
snr_trim=None (not a number) skips the trim entirely, matching the
isinstance(snr_trim, (float, int)) guard. -/
def snrTrim (pred : ℚ → Row → Bool) (snrT : Option ℚ) (rows : List Row) : List Row :=
  match snrT with
  | none => rows
  | some s =>
    if (rows.drop 1).any (pred s) then
      List.rdropWhile (fun r => ! pred s r) (rows.dropWhile (fun r => ! pred s r))
    else rows

/-- Manual exclusion windows (lines 149-156 of spectrum.py): for each
(mn, mx) window the source keeps the indices with wave < mn or
wave > mx, again guarded by the truthy any(idx); fancy indexing with
the ascending index list is a filter. -/
def manualTrim (bounds : List (ℚ × ℚ)) (rows : List Row) : List Row :=
  bounds.foldl
    (fun rs b =>
      let keep := fun r : Row => decide (r.w < b.1) || decide (b.2 < r.w)
      if (rs.drop 1).any keep then rs.filter keep else rs)
    rows

/-- Lines 164-166 of spectrum.py: idx, = np.where(flux[flux>0]) lists
the indices of the nonzero entries of the positives-only array, i.e.
0..k-1 where k is the number of positive fluxes, and indexing the
arrays with it keeps their first k entries. -/
def posFilter (rows : List Row) : List Row :=
  rows.take (rows.filter (fun r => 0 < r.f)).length

/-- Rescaling of the wavelength column by a unit conversion factor. -/
def scaleWave (c : ℚ) (rows : List Row) : List Row :=
  rows.map (fun r => ⟨r.w * c, r.f, r.u⟩)

/-- The cleaning pipeline of Spectrum.init after the unit checks:
convert wave to Angstroms (times ws), scrub, SNR edge trim, manual
windows, the positive filter, and the final conversion of the stored
wavelengths back to the input unit (times ws⁻¹) done by the
wave_units setter at line 178. -/
def pipeline (pred : ℚ → Row → Bool) (ws : ℚ) (snrT : Option ℚ)
    (bounds : List (ℚ × ℚ)) (rows : List Row) : List Row :=
  scaleWave ws⁻¹ (posFilter (manualTrim bounds (snrTrim pred snrT (scrub (scaleWave ws rows)))))

/-- The shape guard of Spectrum.init (lines 107-109) exactly as
written: not wave.shape==flux.shape and ((unc is None) or not
(unc.shape==flux.shape)).  Note the raise is skipped whenever an
uncertainty array of the flux array's length is supplied, even if the
wavelength length differs. -/
def shapeRaise (nw nf : ℕ) (nu : Option ℕ) : Bool :=
  decide (nw ≠ nf) && (nu.isNone || decide (nu ≠ some nf))

/-- Message of the shape TypeError. -/
def shapeMsg : String := "Wavelength, flux and uncertainty arrays must be the same shape."

/-- Assembly of aligned rows from the three input columns. -/
def zipRows (wave flux unc : List ℚ) : List Row :=
  (wave.zip (flux.zip unc)).map (fun p => ⟨p.1, p.2.1, p.2.2⟩)

/-- Spectrum.init with plain uncertainty values: shape guard, the
default uncertainty flux/snr when none is supplied (line 128), then
the cleaning pipeline.  ws and fs are the unit scales of the input
quantities; unit-validity checks of astropy are outside the model. -/
def mkSpectrum (ws fs : ℚ) (wave flux : List ℚ) (uncOpt : Option (List ℚ))
    (snr : ℚ) (snrT : Option ℚ) (bounds : List (ℚ × ℚ)) : Except String SpecState :=
  if shapeRaise wave.length flux.length (uncOpt.map List.length) then
    Except.error shapeMsg
  else
    let unc := match uncOpt with
      | some u => u
      | none => flux.map (· / snr)
    Except.ok ⟨ws, fs, pipeline snrPredQ ws snrT bounds (zipRows wave flux unc)⟩

/-- The spec2-is-None branch of Spectrum.add (lines 194-196):
Spectrum(*self.spectrum) re-runs the constructor on the stored arrays
in the current units with the DEFAULT cleaning policy snr=10,
snr_trim=5, trim=[]. -/
def combineNone (s : SpecState) : Except String SpecState :=
  mkSpectrum s.ws s.fs s.waves s.fluxes (some s.uncs) 10 (some 5) []

/-- The wave_units setter (lines 609-637): converts the stored
wavelength array to the new unit in place and records the new unit. -/
def setWaveUnits (s : SpecState) (ws' : ℚ) : SpecState :=
  ⟨ws', s.fs, s.rows.map (fun r => ⟨r.w * (s.ws / ws'), r.f, r.u⟩)⟩

/-- The flux_units setter (lines 316-341): rescales the stored flux
and uncertainty arrays by the conversion factor and records the new
unit. -/
def setFluxUnits (s : SpecState) (fs' : ℚ) : SpecState :=
  ⟨s.ws, fs', s.rows.map (fun r => ⟨r.w, r.f * (s.fs / fs'), r.u * (s.fs / fs')⟩)⟩

/-- Maximum of a rational list (Python max on a nonempty array). -/
def qmax (l : List ℚ) : ℚ := l.foldl max (l.headD 0)

/-- Minimum of a rational list (Python min on a nonempty array). -/
def qmin (l : List ℚ) : ℚ := l.foldl min (l.headD 0)

/-- Truthiness of np.any on a segment of the data table: some entry of
some selected row is nonzero. -/
def anyNonzero (rows : List Row) : Bool :=
  rows.any (fun r => decide (r.w ≠ 0) || decide (r.f ≠ 0) || decide (r.u ≠ 0))

/-- Squaring of the uncertainty column, used to put the untouched
left/right segments of a merge into the squared-uncertainty
representation of the merged output (see the file header). -/
def sqUnc (rows : List Row) : List Row := rows.map (fun r => ⟨r.w, r.f, r.u ^ 2⟩)

/-- Insertion sort of rows by wavelength, modelling the
np.argsort-by-wavelength reordering of the no-overlap branch. -/
def sortByWave (rows : List Row) : List Row :=
  rows.foldr (fun r acc => acc.insertP (fun r' => decide (r.w ≤ r'.w)) r) []

/-- The array computation of Spectrum.add (lines 198-259) on the two
stripped data tables s1 (self) and s2 (spec2, already converted to
self's units).  The returned uncertainty column holds the SQUARE of
the source's uncertainty array.  Faithful details: the overlap test of
line 210; left/right segments fall back to s2 when the s1 selection is
empty (np.any falsy); the overlap grid o1 is swapped to s2's overlap
when s2 has the higher resolution, yet lines 246-247 interpolate the
FULL s2 either way, and line 247 passes the uncertainty array s2[2] as
both the abscissae and the ordinates of np.interp (instead of
interpolating the uncertainty against the wavelengths s2[0]); the
merged flux is the mean of the grid flux and the interpolated flux and
the merged uncertainty is the quadrature sum. -/
def addMergeRows (s1 s2 : List Row) : List Row :=
  let w1 := s1.map Row.w
  let w2 := s2.map Row.w
  let noOverlap :=
    (w1.getLastD 0 > w1.headD 0 ∧ w1.headD 0 > w2.getLastD 0) ∨
    (w2.getLastD 0 > w2.headD 0 ∧ w2.headD 0 > w1.getLastD 0)
  if noOverlap then sortByWave (sqUnc (s1 ++ s2))
  else
    let left0 := s1.filter (fun r => decide (r.w ≤ w2.headD 0))
    let left := if anyNonzero left0 then left0 else s2.filter (fun r => decide (r.w ≤ w1.headD 0))
    let right0 := s1.filter (fun r => decide (r.w ≥ w2.getLastD 0))
    let right := if anyNonzero right0 then right0
      else s2.filter (fun r => decide (r.w ≥ w1.getLastD 0))
    let rightW := (right.map Row.w).headD 0
    let leftW := (left.map Row.w).getLastD 0
    let o1raw := s1.filter (fun r => decide (r.w < rightW) && decide (r.w > leftW))
    let o2raw := s2.filter (fun r => decide (r.w < rightW) && decide (r.w > leftW))
    let r1 := (s1.length : ℚ) / (qmax w1 - qmin w1)
    let r2 := (s2.length : ℚ) / (qmax w2 - qmin w2)
    let o1 := if r1 < r2 then o2raw else o1raw
    let overlap := o1.map (fun r =>
      let o2f := npInterp r.w (s2.map (fun q => (q.w, q.f)))
      let o2u := npInterp r.w (s2.map (fun q => (q.u, q.u)))
      (⟨r.w, (r.f + o2f) / 2, r.u ^ 2 + o2u ^ 2⟩ : Row))
    sqUnc left ++ overlap ++ sqUnc right

/-- Re-run of the constructor on a merged table whose uncertainty
column is squared: Spectrum(*spec) at line 265 with the default
cleaning policy, in the units of self. -/
def pipelineSq (ws : ℚ) (rows : List Row) : List Row :=
  pipeline snrPredSq ws (some 5) [] rows

/-- Spectrum.add for two spectra (lines 198-270).  Returns the merged
table (uncertainty column squared) after the constructor re-run,
together with the post-call states of the two operands: self is left
untouched, while lines 200-202 set spec2's wavelength and flux units
to self's IN PLACE before the data tables are read.  The provenance
field components stored on the result at line 268 carries no curve
data and is outside the model. -/
def addState (a b : SpecState) : List Row × SpecState × SpecState :=
  let b' := setFluxUnits (setWaveUnits b a.ws) a.fs
  (pipelineSq a.ws (addMergeRows a.rows b'.rows), a, b')

/-- Spectrum.flux_calibrate (lines 283-307): flux scales by
(d/D)^2; the uncertainty is the quadrature sum of
term1 = unc * d / D (NOTE: not times (d/D)^2) and
term2 = 2 * flux * (sigma_d * d / D^2); the result is wrapped in a new
Spectrum with the default cleaning policy.  The returned uncertainty
column is squared, per the file header. -/
def fluxCalibrate (s : SpecState) (d du D : ℚ) : List Row :=
  let rows := s.rows.map (fun r =>
    (⟨r.w, r.f * (d / D) ^ 2, (r.u * d / D) ^ 2 + (2 * r.f * (du * d / D ^ 2)) ^ 2⟩ : Row))
  pipelineSq s.ws rows

/-- The uncertainty (squared) that claim C2 states for flux_calibrate:
quadrature sum of unc*(d/D)^2 and 2*flux*sigma_d*d/D^2. -/
def claimCalibUncSq (f u d du D : ℚ) : ℚ :=
  (u * (d / D) ^ 2) ^ 2 + (2 * f * du * d / D ^ 2) ^ 2

/-- The overlap uncertainty (squared) that claim C1 states for a grid
row of a merge: quadrature sum of the grid row's uncertainty and the
other curve's uncertainty linearly interpolated AGAINST WAVELENGTH
onto the grid wavelength. -/
def claimOverlapUncSq (grid : Row) (other : List Row) : ℚ :=
  grid.u ^ 2 + (npInterp grid.w (other.map (fun r => (r.w, r.u)))) ^ 2

/-- One surviving photometry row of norm_to_mags: observed flux and
uncertainty, synthetic flux and uncertainty, and the bandpass FWHM
appended as the row's weight (line 426). -/
structure PhotDataRow where
  fobs : ℚ
  eobs : ℚ
  fsyn : ℚ
  esyn : ℚ
  fwhm : ℚ
deriving DecidableEq, Repr

/-- The normalization factor of Spectrum.norm_to_mags (lines 390-440)
over the surviving data rows: 1 when no rows survive; otherwise lines
437-440 unpack the per-row weights column but use the leftover scalar
variable weight - the FWHM of the LAST processed row - in both sums
(so it cancels in the ratio and the per-row FWHM weighting has no
effect). -/
def normFactor (data : List PhotDataRow) : ℚ :=
  if data.isEmpty then 1
  else
    let weight := ((data.getLast?).getD ⟨0, 0, 0, 0, 0⟩).fwhm
    let num := (data.map (fun r => weight * r.fobs * r.fsyn / (r.eobs ^ 2 + r.esyn ^ 2))).sum
    let den := (data.map (fun r => weight * r.fsyn ^ 2 / (r.eobs ^ 2 + r.esyn ^ 2))).sum
    num / den

/-- The normalization factor that claim C4 states: each row weighted
by its OWN bandpass FWHM. -/
def claimNormFactor (data : List PhotDataRow) : ℚ :=
  if data.isEmpty then 1
  else
    let num := (data.map (fun r => r.fwhm * r.fobs * r.fsyn / (r.eobs ^ 2 + r.esyn ^ 2))).sum
    let den := (data.map (fun r => r.fwhm * r.fsyn ^ 2 / (r.eobs ^ 2 + r.esyn ^ 2))).sum
    num / den

/-- Spectrum.norm_to_mags (line 442): a new Spectrum built from the
stored arrays with flux and uncertainty both multiplied by the
normalization factor of the surviving rows. -/
def normToMags (s : SpecState) (data : List PhotDataRow) : Except String SpecState :=
  let n := normFactor data
  mkSpectrum s.ws s.fs s.waves (s.fluxes.map (· * n)) (some (s.uncs.map (· * n)))
    10 (some 5) []

/-- Modelled from the spec: the Bandpass collaborator (external to the
sources) exposes a wavelength array with its unit, and a throughput
array. -/
structure Bandpass where
  ws : ℚ
  wave : List ℚ
  thru : List ℚ
deriving DecidableEq, Repr

/-- Modelled from the spec: the result of the external overlap test
bandpass.overlap(spectrum), one of full, partial or none. -/
inductive Overlap where
  | full
  | partOv
  | noOv
deriving DecidableEq, Repr

/-- Spectrum.synthetic_flux (lines 518-569).  When the externally
supplied overlap is full, or partial with force, line 546 sets the
receiver's wavelength units to the bandpass's units IN PLACE (via the
wave_units setter) and the computation proceeds on the bandpass grid:
the flux and uncertainty are interpolated onto it (zero outside), the
flux is the throughput-weighted trapezoidal mean and the uncertainty
the quadrature sum over grid points of sigma*throughput*spacing; the
returned uncertainty is squared, per the file header.  Otherwise the
receiver is untouched and (None, None) is returned.  The returned
state is the state of the receiver after the call. -/
def synthFlux (s : SpecState) (bp : Bandpass) (ov : Overlap) (force : Bool) :
    SpecState × Option (ℚ × ℚ) :=
  if ov = Overlap.full ∨ (ov = Overlap.partOv ∧ force) then
    let s' := setWaveUnits s bp.ws
    let wPairsF := s'.rows.map (fun r => (r.w, r.f))
    let wPairsU := s'.rows.map (fun r => (r.w, r.u))
    let fInterp := bp.wave.map (fun x => npInterpZ x wPairsF)
    let uInterp := bp.wave.map (fun x => npInterpZ x wPairsU)
    let grad := npGradient bp.wave
    let num := npTrapz (bp.wave.zip (fInterp.zipWith (· * ·) bp.thru))
    let den := npTrapz (bp.wave.zip bp.thru)
    let flx := num / den
    let uncSq := ((uInterp.zipWith (· * ·) bp.thru).zipWith (· * ·) grad
      |>.map (· ^ 2)).sum
    (s', some (flx, uncSq))
  else (s, none)

/-- A Python runtime value as far as the isinstance checks of
SED.add_photometry observe it. -/
inductive PyVal where
  | float (x : ℚ)
  | int (n : ℤ)
  | none
  | str (s : String)
deriving DecidableEq, Repr

/-- The isinstance(v, float) test: true only for float values (Python
ints are not instances of float). -/
def PyVal.isFloat : PyVal → Bool
  | .float _ => true
  | _ => false

/-- One row of the photometry table as far as add_photometry builds it
from its arguments (the effective wavelength and bandpass come from
the external SVO service and are outside the model). -/
structure PhotRow where
  band : String
  mag : PyVal
  magUnc : PyVal
deriving DecidableEq, Repr

/-- SED.add_photometry (lines 500-517): raises its TypeError only when
the magnitude AND the uncertainty are both non-floats (line 504:
not isinstance(mag, float) and not isinstance(mag_unc, float));
otherwise the new row is appended to the photometry table. -/
def addPhotometry (tbl : List PhotRow) (band : String) (mag magUnc : PyVal) :
    Except String (List PhotRow) :=
  if !mag.isFloat && !magUnc.isFloat then
    Except.error "Magnitude and uncertainty must be floats."
  else
    Except.ok (tbl ++ [⟨band, mag, magUnc⟩])

/-- The overlap test of SED.group_spectra (line 583): any sample of
the anchor's wavelength array S lies strictly inside the candidate's
span, guarded by the truthy any(np.where(...)[0]) quirk - an index
at position >= 1 must satisfy the condition (see the file header). -/
def overlapTest (S s : List ℚ) : Bool :=
  (S.drop 1).any (fun x => decide (x < s.getLastD 0) && decide (s.headD 0 < x))

/-- SED.group_spectra (lines 573-586): single-pass greedy grouping.
Each not-yet-grouped spectrum anchors a new group and absorbs every
later not-yet-grouped spectrum passing the anchor-vs-candidate overlap
test.  By the loop invariant that every index up to the anchor's is
already grouped, the imperative index bookkeeping is the partition of
the remaining list by the anchor's test. -/
def groupSpectra : List (List ℚ) → List (List (List ℚ))
  | [] => []
  | S :: rest =>
    (S :: rest.filter (fun s => overlapTest S s)) ::
      groupSpectra (rest.filter (fun s => ! overlapTest S s))
termination_by l => l.length
decreasing_by
  simp only [List.length_cons]
  exact Nat.lt_succ_of_le (List.length_filter_le _ _)

/-- Rounding to three decimal places, round(x, 3) of lines 692-695.
Python rounds ties to even while Mathlib's round rounds them up; the
two agree except at exact ties, which do not occur in the values
considered below. -/
noncomputable def round3 (x : ℝ) : ℝ := (round (1000 * x) : ℤ) / 1000

/-- SED.get_mbol, line 692: the apparent bolometric magnitude
-2.5*log10(fbol) - 11.482, rounded to three decimals. -/
noncomputable def getMbol (fbol : ℝ) : ℝ :=
  round3 (-2.5 * Real.logb 10 fbol - 11.482)

/-- SED.get_mbol, line 695: the uncertainty
(2.5/ln 10)*(sigma_fbol/fbol), rounded to three decimals. -/
noncomputable def getMbolUnc (fbol sigFbol : ℝ) : ℝ :=
  round3 (2.5 / Real.log 10 * (sigFbol / fbol))

/-- Series A of the spec's merge example: wavelengths 1.0, 1.1, 1.2 um,
values 5, uncertainties 0.5. -/
def specExA : List Row := [⟨1, 5, 1/2⟩, ⟨11/10, 5, 1/2⟩, ⟨6/5, 5, 1/2⟩]

/-- Series B of the spec's merge example: wavelengths 1.15, 1.25, 1.35
um, values 6, uncertainties 0.6. -/
def specExB : List Row := [⟨23/20, 6, 3/5⟩, ⟨5/4, 6, 3/5⟩, ⟨27/20, 6, 3/5⟩]

/-- Series B with non-constant (increasing) uncertainties 0.2, 0.6,
1.0, exposing the interpolation axis of the merged uncertainty. -/
def specExBvar : List Row := [⟨23/20, 6, 1/5⟩, ⟨5/4, 6, 3/5⟩, ⟨27/20, 6, 1⟩]

/-- Spectrum state over series A in micron wavelength units. -/
def stateExA : SpecState := ⟨10000, 1, specExA⟩

/-- The data rows of the weighting counterexample for norm_to_mags:
two surviving bands whose FWHM weights differ by a factor of ten. -/
def normEx : List PhotDataRow := [⟨2, 1, 1, 0, 1⟩, ⟨1, 1, 2, 0, 10⟩]



/-- Claim C1 (code_bug).  At the spec's own example the merged overlap
row has the claimed mean flux 5.5 and squared uncertainty
0.5^2 + 0.6^2 = 0.61 (first conjunct; constant uncertainties mask the
bug).  But with non-constant uncertainties on B the source's merged
squared uncertainty at the grid point 1.2 is 0.5^2 + 1.0^2 = 1.25,
because line 247 interpolates B's uncertainty with the uncertainty
array itself as the abscissae, while the claim's
interpolate-against-wavelength value is 0.5^2 + 0.4^2 = 0.41. -/
theorem C1_merge_unc_interpolated_against_unc :
    (addState stateExA ⟨10000, 1, specExB⟩).1 =
      [⟨1, 5, 1/4⟩, ⟨11/10, 5, 1/4⟩, ⟨6/5, 11/2, 61/100⟩, ⟨5/4, 6, 9/25⟩, ⟨27/20, 6, 9/25⟩] ∧
    (addState stateExA ⟨10000, 1, specExBvar⟩).1 =
      [⟨1, 5, 1/4⟩, ⟨11/10, 5, 1/4⟩, ⟨6/5, 11/2, 5/4⟩, ⟨5/4, 6, 9/25⟩, ⟨27/20, 6, 1⟩] ∧
    claimOverlapUncSq ⟨6/5, 5, 1/2⟩ specExBvar = 41/100 ∧
    ((5 : ℚ)/4 ≠ 41/100) := by
  refine ⟨?_, ?_, ?_, by norm_num⟩ <;>
    norm_num [addState, addMergeRows, pipelineSq, pipeline, scaleWave, posFilter,
      manualTrim, snrTrim, List.rdropWhile, scrub, snrPredSq, sqUnc, sortByWave, qmax, qmin,
      anyNonzero, npInterp, setWaveUnits, setFluxUnits, claimOverlapUncSq,
      List.dropWhile, stateExA, specExA, specExB, specExBvar, List.headD, List.getLastD]

/-- Claim C2 (code_bug).  flux_calibrate of a single sample with
value 10, uncertainty 1, from distance (20 pc, 2 pc) to 10 pc scales
the flux to 10*(20/10)^2 = 40 as claimed, but the source's squared
uncertainty is (1*20/10)^2 + (2*10*(2*20/100))^2 = 68 (line 303 scales
the value uncertainty by d/D, not by (d/D)^2), while the claim's
formula gives (1*(20/10)^2)^2 + (2*10*2*20/100)^2 = 80. -/
theorem C2_flux_calibrate_unc_term :
    fluxCalibrate ⟨1, 1, [⟨1, 10, 1⟩]⟩ 20 2 10 = [⟨1, 40, 68⟩] ∧
    claimCalibUncSq 10 1 20 2 10 = 80 ∧
    ((68 : ℚ) ≠ 80) ∧
    (40 : ℚ) = 10 * (20/10) ^ 2 := by
  refine ⟨?_, by norm_num [claimCalibUncSq], by norm_num, by norm_num⟩
  norm_num [fluxCalibrate, pipelineSq, pipeline, scaleWave, posFilter, manualTrim,
    snrTrim, List.rdropWhile, scrub, snrPredSq, List.dropWhile]

/-- Claim C4 (code_bug).  On two surviving rows (f_obs, sigma_obs,
f_syn, sigma_syn, FWHM) = (2,1,1,0,1) and (1,1,2,0,10) the source's
normalization factor is 4/5: line 438 uses the scalar weight left by
the loop (the last row's FWHM) in both sums, so the FWHM weighting
cancels, whereas the claim's per-row-FWHM formula gives 22/41.  With
no surviving rows the factor is 1 and norm_to_mags returns the arrays
unchanged, as the claim states. -/
theorem C4_norm_to_mags_weight_slip :
    normFactor normEx = 4/5 ∧
    claimNormFactor normEx = 22/41 ∧
    ((4 : ℚ)/5 ≠ 22/41) ∧
    normFactor [] = 1 ∧
    normToMags ⟨1, 1, [⟨1, 5, 1/2⟩]⟩ [] = Except.ok ⟨1, 1, [⟨1, 5, 1/2⟩]⟩ := by
  refine ⟨by norm_num [normFactor, normEx], by norm_num [claimNormFactor, normEx],
    by norm_num, by norm_num [normFactor], ?_⟩
  norm_num [normToMags, normFactor, mkSpectrum, shapeRaise, SpecState.waves,
    SpecState.fluxes, SpecState.uncs, zipRows, pipeline, scaleWave, posFilter,
    manualTrim, snrTrim, List.rdropWhile, scrub, snrPredQ, List.dropWhile]

/-- Claim C6 (code_bug).  With a wavelength array of length 2 and a
flux array of length 3 the shape guard of lines 107-109 fires only
when no matching-length uncertainty is supplied: the botched boolean
(not wave.shape==flux.shape and (unc is None or not
unc.shape==flux.shape)) skips the TypeError whenever an uncertainty
array of the flux array's length is passed, contradicting the claim's
"regardless" clause. -/
theorem C6_shape_guard_skipped_with_matching_unc :
    shapeRaise 2 3 (some 3) = false ∧
    shapeRaise 2 3 none = true ∧
    mkSpectrum 1 1 [1, 2] [1, 2, 3] (some [1, 1, 1]) 10 (some 5) [] ≠
      Except.error shapeMsg ∧
    mkSpectrum 1 1 [1, 2] [1, 2, 3] none 10 (some 5) [] = Except.error shapeMsg := by
  refine ⟨by decide, by decide, ?_, by norm_num [mkSpectrum, shapeRaise]⟩
  norm_num [mkSpectrum, shapeRaise]
  exact fun h => Except.noConfusion h



/-- Mapping the rebuild-from-fields function over rows is the
identity. -/
theorem mapRowEta (rows : List Row) :
    rows.map (fun r : Row => (⟨r.w, r.f, r.u⟩ : Row)) = rows := by
  induction rows with
  | nil => rfl
  | cons r rs ih =>
    cases r
    simp [ih]

/-- Claim C5, counterexample.  Merging a spectrum in Angstrom
wavelength units (scale 1) with one in micron units (scale 10000)
rewrites the second operand in place: its wavelength unit field and
its stored wavelength array are changed by lines 200-202, so the
operands are not both unchanged. -/
theorem C5_merge_mutates_second_operand :
    (addState ⟨1, 1, [⟨1, 5, 0⟩, ⟨2, 5, 0⟩]⟩ ⟨10000, 1, [⟨3, 5, 0⟩]⟩).2.2 ≠
      (⟨10000, 1, [⟨3, 5, 0⟩]⟩ : SpecState) := by
  norm_num [addState, setWaveUnits, setFluxUnits]

/-- Claim C5, amended.  The merge never touches the first operand; it
sets the second operand's wavelength and flux units to the first's,
rescaling its stored arrays by the corresponding conversion factors,
and when the operands' units already agree (and are nonzero scales)
the second operand is unchanged as well. -/
theorem C5_merge_preserves_first_and_coerces_second (a b : SpecState) :
    (addState a b).2.1 = a ∧
    (addState a b).2.2.ws = a.ws ∧
    (addState a b).2.2.fs = a.fs ∧
    (b.ws = a.ws → b.fs = a.fs → a.ws ≠ 0 → a.fs ≠ 0 → (addState a b).2.2 = b) := by
  refine ⟨rfl, rfl, rfl, fun hw hf hw0 hf0 => ?_⟩
  cases b with
  | mk bws bfs brows =>
    simp only at hw hf
    subst hw
    subst hf
    simp [addState, setWaveUnits, setFluxUnits, div_self hw0, div_self hf0, mapRowEta]

/-- Witness for the amended claim C5 at two concrete spectra with
equal (Angstrom) units: the merge returns both operands unchanged. -/
theorem C5_merge_preserves_first_and_coerces_second_witness :
    (addState ⟨1, 1, [⟨1, 2, 0⟩]⟩ ⟨1, 1, [⟨5, 2, 0⟩]⟩).2.1 = (⟨1, 1, [⟨1, 2, 0⟩]⟩ : SpecState) ∧
    (addState ⟨1, 1, [⟨1, 2, 0⟩]⟩ ⟨1, 1, [⟨5, 2, 0⟩]⟩).2.2 = (⟨1, 1, [⟨5, 2, 0⟩]⟩ : SpecState) := by
  refine ⟨(C5_merge_preserves_first_and_coerces_second _ _).1, ?_⟩
  exact (C5_merge_preserves_first_and_coerces_second ⟨1, 1, [⟨1, 2, 0⟩]⟩ _).2.2.2
    rfl rfl one_ne_zero one_ne_zero

/-- Claim C9.  add_photometry raises its TypeError exactly when the
magnitude and the uncertainty are both non-floats, and whenever the
magnitude is a float the new row is appended to the photometry table
regardless of the uncertainty's type. -/
theorem C9_add_photometry_guard (tbl : List PhotRow) (band : String) (m u : PyVal) :
    ((∃ e, addPhotometry tbl band m u = Except.error e) ↔
      (m.isFloat = false ∧ u.isFloat = false)) ∧
    (m.isFloat = true → addPhotometry tbl band m u = Except.ok (tbl ++ [⟨band, m, u⟩])) := by
  constructor
  · constructor
    · intro ⟨e, he⟩
      by_cases hm : m.isFloat <;> by_cases hu : u.isFloat <;>
        simp_all [addPhotometry]
    · intro ⟨hm, hu⟩
      exact ⟨"Magnitude and uncertainty must be floats.", by simp [addPhotometry, hm, hu]⟩
  · intro hm
    simp [addPhotometry, hm]

/-- Witness for claim C9: a float magnitude of 5.0 with a None
uncertainty is accepted and the row lands in the table. -/
theorem C9_add_photometry_guard_witness :
    addPhotometry [] "2MASS.J" (PyVal.float 5) PyVal.none =
      Except.ok [⟨"2MASS.J", PyVal.float 5, PyVal.none⟩] :=
  (C9_add_photometry_guard [] "2MASS.J" (PyVal.float 5) PyVal.none).2 rfl

/-- Claim C8.  Whenever the externally reported bandpass overlap is
full, or partial with force, synthetic_flux sets the receiver's
wavelength units to the bandpass's wavelength units in place (line
546), and the receiver keeps that state after the call returns. -/
theorem C8_synthetic_flux_sets_wave_units (s : SpecState) (bp : Bandpass)
    (ov : Overlap) (force : Bool)
    (h : ov = Overlap.full ∨ (ov = Overlap.partOv ∧ force = true)) :
    (synthFlux s bp ov force).1 = setWaveUnits s bp.ws ∧
    (synthFlux s bp ov force).1.ws = bp.ws := by
  have hc : (ov = Overlap.full ∨ (ov = Overlap.partOv ∧ force)) := by
    rcases h with h | ⟨h1, h2⟩
    · exact Or.inl h
    · exact Or.inr ⟨h1, h2⟩
  constructor
  · simp only [synthFlux, if_pos hc]
  · simp only [synthFlux, if_pos hc, setWaveUnits]

/-- Witness for claim C8: a spectrum stored in micron units (scale
10000) handed a bandpass in Angstrom units (scale 1) with full
overlap comes out of synthetic_flux with its wavelength unit scale
changed to the bandpass's. -/
theorem C8_synthetic_flux_sets_wave_units_witness :
    (synthFlux ⟨10000, 1, [⟨1, 5, 0⟩]⟩ ⟨1, [1], [1]⟩ Overlap.full false).1 =
      setWaveUnits ⟨10000, 1, [⟨1, 5, 0⟩]⟩ 1 ∧
    (synthFlux ⟨10000, 1, [⟨1, 5, 0⟩]⟩ ⟨1, [1], [1]⟩ Overlap.full false).1.ws = 1 :=
  C8_synthetic_flux_sets_wave_units ⟨10000, 1, [⟨1, 5, 0⟩]⟩ ⟨1, [1], [1]⟩
    Overlap.full false (Or.inl rfl)

/-- Auxiliary for claim C10: concatenating the groups produced by
group_spectra gives a permutation of the input list.  Strong induction
on the length of the remaining list, using that each step splits the
tail into the absorbed and the not-absorbed spectra. -/
theorem groupSpectra_join_perm (L : List (List ℚ)) :
    ((groupSpectra L).flatten).Perm L := by
  have key : ∀ n (M : List (List ℚ)), M.length ≤ n → ((groupSpectra M).flatten).Perm M := by
    intro n
    induction n with
    | zero =>
      intro M hM
      rw [Nat.le_zero, List.length_eq_zero] at hM
      subst hM
      simp [groupSpectra]
    | succ n ih =>
      intro M hM
      match M with
      | [] => simp [groupSpectra]
      | S :: rest =>
        rw [groupSpectra]
        simp only [List.flatten_cons, List.cons_append]
        refine List.Perm.cons S ?_
        have h1 := ih (rest.filter (fun s => ! overlapTest S s))
          (le_trans (List.length_filter_le _ _) (Nat.le_of_succ_le_succ hM))
        exact ((h1.append_left (rest.filter (fun s => overlapTest S s))).trans
          (List.filter_append_perm (fun s => overlapTest S s) rest))
  exact key L.length L le_rfl

/-- Claim C10.  group_spectra partitions its input: every input
spectrum lands in exactly one returned group (the concatenation of the
groups is a permutation of the input list), so the total number of
spectra across the groups equals the length of the input. -/
theorem C10_group_spectra_partition (L : List (List ℚ)) :
    ((groupSpectra L).flatten).Perm L ∧ ((groupSpectra L).flatten).length = L.length :=
  ⟨groupSpectra_join_perm L, (groupSpectra_join_perm L).length_eq⟩

/-- Stripping the failing prefix leaves a list whose head passes, so a
second prefix strip after a suffix strip does nothing. -/
theorem dropWhile_rdropWhile_dropWhile (q : α → Bool) (m : List α) :
    (List.rdropWhile q (m.dropWhile q)).dropWhile q = List.rdropWhile q (m.dropWhile q) := by
  rcases hz : List.rdropWhile q (m.dropWhile q) with _ | ⟨a, t⟩
  · rfl
  · have hpre : (a :: t) <+: m.dropWhile q := hz ▸ List.rdropWhile_prefix q (m.dropWhile q)
    have hne : m.dropWhile q ≠ [] := by
      intro h0
      rw [h0, List.prefix_nil] at hpre
      exact List.cons_ne_nil a t hpre
    have hha : a = (m.dropWhile q).head hne := by
      have h := hpre.head (List.cons_ne_nil a t)
      simpa using h
    have hqa : q a = false := by
      rw [hha]
      exact List.head_dropWhile_not q m hne
    simp [List.dropWhile_cons, hqa]

/-- The SNR edge trim is idempotent. -/
theorem snrTrim_idem (pred : ℚ → Row → Bool) (snrT : Option ℚ) (rows : List Row) :
    snrTrim pred snrT (snrTrim pred snrT rows) = snrTrim pred snrT rows := by
  cases snrT with
  | none => rfl
  | some s =>
    simp only [snrTrim]
    by_cases h : ((rows.drop 1).any (pred s)) = true
    · rw [if_pos h]
      by_cases h2 : (((List.rdropWhile (fun r => ! pred s r)
          (rows.dropWhile (fun r => ! pred s r))).drop 1).any (pred s)) = true
      · rw [if_pos h2, dropWhile_rdropWhile_dropWhile, List.rdropWhile_idempotent]
      · rw [if_neg h2]
    · rw [if_neg h, if_neg h]

/-- The SNR edge trim returns a sublist of its input. -/
theorem snrTrim_sublist (pred : ℚ → Row → Bool) (snrT : Option ℚ) (rows : List Row) :
    List.Sublist (snrTrim pred snrT rows) rows := by
  cases snrT with
  | none => exact List.Sublist.refl rows
  | some s =>
    simp only [snrTrim]
    split
    · exact ((List.rdropWhile_prefix _ _).sublist).trans (List.dropWhile_sublist _)
    · exact List.Sublist.refl rows

/-- Every sample surviving the scrub has positive flux. -/
theorem scrub_mem_pos {rows : List Row} {r : Row} (h : r ∈ scrub rows) : 0 < r.f := by
  have h2 := List.of_mem_filter h
  simpa using h2

/-- The scrub keeps lists of positive-flux samples unchanged. -/
theorem scrub_eq_self {rows : List Row} (h : ∀ r ∈ rows, 0 < r.f) : scrub rows = rows :=
  List.filter_eq_self.mpr (fun r hr => by simpa using h r hr)

/-- The positive filter keeps lists of positive-flux samples
unchanged. -/
theorem posFilter_eq_self {rows : List Row} (h : ∀ r ∈ rows, 0 < r.f) :
    posFilter rows = rows := by
  unfold posFilter
  rw [List.filter_eq_self.mpr (fun r hr => by simpa using h r hr), List.take_length]

/-- Converting the wavelengths to Angstroms and back is the identity
for a nonzero unit scale. -/
theorem scaleWave_inv_cancel {ws : ℚ} (h : ws ≠ 0) (rows : List Row) :
    scaleWave ws (scaleWave ws⁻¹ rows) = rows := by
  unfold scaleWave
  rw [List.map_map]
  have h2 : ((fun r : Row => (⟨r.w * ws, r.f, r.u⟩ : Row)) ∘
      fun r : Row => (⟨r.w * ws⁻¹, r.f, r.u⟩ : Row)) = id := by
    funext r
    cases r
    simp [mul_assoc, inv_mul_cancel₀ h]
  rw [h2, List.map_id]

/-- With no manual windows the manual trim is the identity. -/
theorem manualTrim_nil (rows : List Row) : manualTrim [] rows = rows := rfl

/-- The cleaning pipeline of the constructor is idempotent (for any
SNR predicate and threshold, no manual windows, and a nonzero
wavelength unit scale): a second construction leaves the arrays of a
constructed spectrum unchanged. -/
theorem pipeline_idem (pred : ℚ → Row → Bool) {ws : ℚ} (hws : ws ≠ 0)
    (snrT : Option ℚ) (rows : List Row) :
    pipeline pred ws snrT [] (pipeline pred ws snrT [] rows) =
      pipeline pred ws snrT [] rows := by
  unfold pipeline
  rw [manualTrim_nil, manualTrim_nil]
  have hzpos : ∀ r ∈ snrTrim pred snrT (scrub (scaleWave ws rows)), 0 < r.f :=
    fun r hr => scrub_mem_pos ((snrTrim_sublist pred snrT _).subset hr)
  rw [posFilter_eq_self hzpos, scaleWave_inv_cancel hws, scrub_eq_self hzpos,
    snrTrim_idem, posFilter_eq_self hzpos]

/-- Rebuilding the rows from their three columns is the identity. -/
theorem zipRows_columns (rows : List Row) :
    zipRows (rows.map Row.w) (rows.map Row.f) (rows.map Row.u) = rows := by
  induction rows with
  | nil => rfl
  | cons r t ih =>
    cases r
    simp only [zipRows, List.map_cons, List.zip_cons_cons] at ih ⊢
    rw [ih]

/-- Claim C3, counterexample.  A spectrum constructed with the
non-default edge-trim threshold snr_trim=3 can keep an edge sample of
SNR 4; combining it with None re-runs the constructor with the default
snr_trim=5, which trims that sample away, so combine(A, None) is not A
for every spectrum A. -/
theorem C3_combine_none_not_identity :
    mkSpectrum 1 1 [1, 2] [20, 100] (some [5, 1]) 10 (some 3) [] =
      Except.ok ⟨1, 1, [⟨1, 20, 5⟩, ⟨2, 100, 1⟩]⟩ ∧
    combineNone ⟨1, 1, [⟨1, 20, 5⟩, ⟨2, 100, 1⟩]⟩ =
      Except.ok ⟨1, 1, [⟨2, 100, 1⟩]⟩ ∧
    ([(⟨2, 100, 1⟩ : Row)] ≠ [⟨1, 20, 5⟩, ⟨2, 100, 1⟩]) := by
  refine ⟨?_, ?_, by simp⟩ <;>
    norm_num [mkSpectrum, combineNone, shapeRaise, SpecState.waves, SpecState.fluxes,
      SpecState.uncs, zipRows, pipeline, scaleWave, posFilter, manualTrim, snrTrim,
      List.rdropWhile, scrub, snrPredQ, List.dropWhile]

/-- Auxiliary for claim C3: combining with None is the identity on
any state whose rows are an output of the default cleaning pipeline,
because the pipeline is idempotent. -/
theorem combineNone_pipeline (ws fs : ℚ) (hws : ws ≠ 0) (rows0 : List Row) :
    combineNone ⟨ws, fs, pipeline snrPredQ ws (some 5) [] rows0⟩ =
      Except.ok ⟨ws, fs, pipeline snrPredQ ws (some 5) [] rows0⟩ := by
  unfold combineNone mkSpectrum
  have hlen : ∀ R : List Row, shapeRaise (R.map Row.w).length (R.map Row.f).length
      ((some (R.map Row.u)).map List.length) = false := by
    intro R
    simp [shapeRaise]
  simp only [SpecState.waves, SpecState.fluxes, SpecState.uncs]
  rw [if_neg (by rw [hlen]; exact Bool.false_ne_true)]
  simp only [Except.ok.injEq, SpecState.mk.injEq, true_and]
  rw [zipRows_columns]
  exact pipeline_idem snrPredQ hws (some 5) rows0

/-- Claim C3, amended.  For every spectrum constructed with the
default cleaning policy (snr_trim=5, no manual windows) and a nonzero
wavelength unit scale, combining with None returns a spectrum with the
same wavelength, flux and uncertainty arrays: the re-run of the
constructor is idempotent on its own output. -/
theorem C3_combine_none_identity_default_policy
    (ws fs : ℚ) (wave flux : List ℚ) (uncOpt : Option (List ℚ)) (snr : ℚ)
    (A : SpecState) (hws : ws ≠ 0)
    (hmk : mkSpectrum ws fs wave flux uncOpt snr (some 5) [] = Except.ok A) :
    combineNone A = Except.ok A := by
  unfold mkSpectrum at hmk
  by_cases hshape : shapeRaise wave.length flux.length (uncOpt.map List.length) = true
  · rw [if_pos hshape] at hmk
    exact absurd hmk (by simp)
  · rw [if_neg hshape] at hmk
    have h := Except.ok.inj hmk
    subst h
    exact combineNone_pipeline ws fs hws _

/-- Witness for the amended claim C3 at a concrete default-built
spectrum: combining with None reproduces its arrays. -/
theorem C3_combine_none_identity_default_policy_witness :
    combineNone ⟨1, 1, [⟨1, 5, 0⟩]⟩ = Except.ok ⟨1, 1, [⟨1, 5, 0⟩]⟩ :=
  C3_combine_none_identity_default_policy 1 1 [1] [5] (some [0]) 10
    ⟨1, 1, [⟨1, 5, 0⟩]⟩ one_ne_zero
    (by norm_num [mkSpectrum, shapeRaise, zipRows, pipeline, scaleWave, posFilter,
      manualTrim, snrTrim, scrub, snrPredQ, List.dropWhile])

/-- Taylor bounds at order five: the natural log of 5/4 lies between
41822/187500 and 41852/187500 (about 0.22305 and 0.22321). -/
theorem log_five_fourths_bounds :
    (41822/187500 : ℝ) ≤ Real.log (5/4) ∧ Real.log (5/4) ≤ (41852/187500 : ℝ) := by
  have h54 : (5/4 : ℝ) = (1 - 1/5)⁻¹ := by norm_num
  have habs : |(1/5 : ℝ)| < 1 := by
    rw [abs_of_pos] <;> norm_num
  have hs := Real.abs_log_sub_add_sum_range_le habs 5
  have hsum : (∑ i ∈ Finset.range 5, (1/5 : ℝ) ^ (i+1) / (i+1)) = 41837/187500 := by
    simp [Finset.sum_range_succ]
    norm_num
  have hb : |(1/5 : ℝ)| ^ (5+1) / (1 - |(1/5 : ℝ)|) = 1/12500 := by
    rw [abs_of_pos] <;> norm_num
  rw [hsum, hb, abs_le] at hs
  rw [h54, Real.log_inv]
  constructor <;> linarith [hs.1, hs.2]

/-- Decimal bounds on the natural log of 10, via
log 10 = 3 log 2 + log (5/4). -/
theorem log_ten_bounds : (2.30249 : ℝ) < Real.log 10 ∧ Real.log 10 < (2.30266 : ℝ) := by
  have h10 : (10 : ℝ) = 2 ^ (3 : ℕ) * (5/4) := by norm_num
  have hl : Real.log 10 = 3 * Real.log 2 + Real.log (5/4) := by
    rw [h10, Real.log_mul (by norm_num) (by norm_num), Real.log_pow]
    norm_num
  have h2a := Real.log_two_gt_d9
  have h2b := Real.log_two_lt_d9
  have h54 := log_five_fourths_bounds
  constructor <;> rw [hl] <;> linarith [h54.1, h54.2]

/-- Rounding to three decimals moves a real by at most 1/2000. -/
theorem round3_close (x : ℝ) : |round3 x - x| ≤ 1/2000 := by
  unfold round3
  have h := abs_sub_round (1000 * x)
  rw [abs_sub_comm] at h
  have heq : (round (1000*x) : ℝ)/1000 - x = ((round (1000*x) : ℝ) - 1000*x)/1000 := by
    ring
  rw [heq, abs_div, abs_of_pos (show (0:ℝ) < 1000 by norm_num)]
  linarith

/-- Claim C7, counterexample.  At the bolometric flux pair
(fbol, sigma) = (1, 1) the source's mbol uncertainty is the rounded
value 1.086, which differs from the claim's exact
(2.5/ln 10)*(sigma/fbol) = 1.08573...: get_mbol rounds both outputs to
three decimals (lines 692-695), so the claimed exact equality fails. -/
theorem C7_mbol_unc_rounding_counterexample :
    getMbolUnc 1 1 ≠ 2.5 / Real.log 10 * (1 / 1) := by
  have hlog := log_ten_bounds
  have hpos : (0:ℝ) < Real.log 10 := by linarith [hlog.1]
  have hq1 : (1085.6 : ℝ) < 2500 / Real.log 10 := by
    rw [lt_div_iff₀ hpos]
    nlinarith [hlog.2]
  have hq2 : 2500 / Real.log 10 < (1085.8 : ℝ) := by
    rw [div_lt_iff₀ hpos]
    nlinarith [hlog.1]
  unfold getMbolUnc round3
  have harg : 1000 * (2.5 / Real.log 10 * (1/1)) = 2500 / Real.log 10 := by
    ring
  rw [harg]
  have hround : round (2500 / Real.log 10) = 1086 := by
    rw [round_eq]
    apply Int.floor_eq_iff.mpr
    constructor <;> push_cast <;> linarith
  rw [hround]
  intro habs
  have hlt : 2.5 / Real.log 10 * (1/1) < 1.086 := by
    rw [mul_one_div, div_one, div_lt_iff₀ hpos]
    nlinarith [hlog.1]
  rw [← habs] at hlt
  norm_num at hlt

/-- Claim C7, amended.  get_mbol returns the claim's formulas rounded
to the nearest thousandth: the stored mbol equals
-2.5 log10(fbol) - 11.482 rounded to three decimals and the stored
uncertainty equals (2.5/ln 10)(sigma/fbol) rounded to three decimals,
each within 1/2000 of the exact value; at fbol = 10^-5, where the
formula value 1.018 has exactly three decimals, the stored mbol equals
the claim's formula exactly. -/
theorem C7_mbol_rounded_formula (f s : ℝ) :
    getMbol f = round3 (-2.5 * Real.logb 10 f - 11.482) ∧
    |getMbol f - (-2.5 * Real.logb 10 f - 11.482)| ≤ 1/2000 ∧
    getMbolUnc f s = round3 (2.5 / Real.log 10 * (s / f)) ∧
    |getMbolUnc f s - 2.5 / Real.log 10 * (s / f)| ≤ 1/2000 ∧
    getMbol ((10 : ℝ) ^ (-5 : ℝ)) = 1.018 := by
  refine ⟨rfl, round3_close _, rfl, round3_close _, ?_⟩
  have hlogb : Real.logb 10 ((10 : ℝ) ^ (-5 : ℝ)) = -5 :=
    Real.logb_rpow (by norm_num) (by norm_num)
  unfold getMbol round3
  rw [hlogb]
  norm_num [round_eq]
